import Mathlib

/-!
Verification of the MPFramework process supervision loop
(source: src/MPFProcess.py, class MPFProcess).

The Python class runs a supervision loop inside a child process:
`run()` constructs a task checker and a results publisher, obtains a
logger, calls the worker's `init()` hook, then loops: poll for a
command message, break on the stop sentinel "STOP PROCESS", otherwise
dispatch `update`, then `step`, then `publish`, then optionally sleep.
A bare `except:` logs any failure at critical severity, and a `finally:`
block tears down the task checker (guarded on it being non-None), drops
the results publisher, and calls the worker's `cleanup()`.

Shallow embedding: the lifecycle hooks, the channel constructors and
the channel poll are external calls whose outcomes are supplied by an
oracle environment `RunEnv`.  Each hook call may raise; the only piece
of the supervisor's state a hook may touch is the `shared_memory`
field (the hooks belong to the worker subclass; the supervisor's other
fields are written only by the supervision code itself, which we embed
directly).  The interpreter threads the Python object's attribute
state (`PState`), emits a trace of events in the exact order the
Python statements execute, and is given fuel to bound the
`while True:` loop; running out of fuel models a still-running loop
(no teardown has happened yet).
-/

/-- A Python exception, as far as the supervision code distinguishes them. -/
inductive PyExc where
  /-- `NotImplementedError`, raised by the unimplemented base hooks. -/
  | notImplementedError
  /-- `AttributeError`, raised when a `None` attribute is dereferenced
  (e.g. `self._MPFLog.critical(...)` while `_MPFLog is None`). -/
  | attributeError
  /-- any other exception escaping an external call (hook, constructor,
  poll or sleep). -/
  | hookError
deriving DecidableEq

/-- The debug log statements of `MPFProcess.run`, identified by program point. -/
inductive DebugPoint where
  | initializingMsg
  | initializedMsg
  | stopSignalMsg
  | cleaningTaskCheckerMsg
  | cleanedTaskCheckerMsg
  | cleaningUpMsg
  | exitingMsg
deriving DecidableEq

/-- Observable events of one execution of `run()`, in program order. -/
inductive Event where
  /-- a `self._MPFLog.debug(...)` call that succeeded. -/
  | debug (p : DebugPoint)
  /-- the `self._MPFLog.critical(...)` call of the `except:` handler,
  carrying the worker's name and the caught exception (the traceback). -/
  | critical (name : String) (err : PyExc)
  /-- `self.task_checker.check_for_update()` was invoked. -/
  | pollCall
  /-- `self.update(header, data)` was invoked with these arguments. -/
  | updateCall (header : String) (data : Nat)
  /-- `self.step()` was invoked. -/
  | stepCall
  /-- `self.publish()` was invoked. -/
  | publishCall
  /-- `time.sleep(self._loop_wait_period)` was invoked. -/
  | sleepCall
  /-- `self.init()` was invoked. -/
  | initCall
  /-- `self.task_checker.cleanup()` was invoked. -/
  | tcCleanupCall
  /-- `del self.task_checker` executed. -/
  | dropTaskChecker
  /-- `del self.results_publisher` executed. -/
  | dropResultsPublisher
  /-- `self.cleanup()` was invoked. -/
  | workerCleanupCall
deriving DecidableEq

/-- Outcome of one `self.task_checker.check_for_update()` call. -/
inductive PollOut where
  /-- the poll itself raised. -/
  | pollRaise
  /-- returned `False`: no new message. -/
  | noMsg
  /-- returned `True`; `task_checker.header` and `task_checker.latest_data`
  hold the most recent message. -/
  | newMsg (header : String) (data : Nat)
deriving DecidableEq

/-- Outcome of one worker-hook invocation: whether it raises, and the value
(if any) it stores into `self.shared_memory` before returning or raising.
`M` is the (opaque) type of the shared-memory handle. -/
structure HookOut (M : Type) where
  /-- `none` = the call returns normally, `some e` = it raises `e`. -/
  raises : Option PyExc
  /-- `none` = the hook leaves `self.shared_memory` alone,
  `some v` = it assigns `v` to `self.shared_memory`. -/
  memEff : Option (Option M)

/-- The external outcomes consumed by one loop iteration. -/
structure IterEnv (M : Type) where
  poll : PollOut
  updateHook : HookOut M
  stepHook : HookOut M
  publishHook : HookOut M
  /-- outcome of `time.sleep` (consulted only when a wait period is set). -/
  sleepRaises : Option PyExc

/-- The external outcomes consumed by one execution of `run()`. -/
structure RunEnv (M : Type) where
  /-- `MPFTaskChecker(...)` construction (also stands for a failing import):
  `none` = success. -/
  tcCtor : Option PyExc
  /-- `MPFResultPublisher(...)` construction: `none` = success. -/
  rpCtor : Option PyExc
  /-- the `self.init()` call. -/
  initHook : HookOut M
  /-- outcomes for loop iteration `i`. -/
  iters : Nat → IterEnv M
  /-- the `self.task_checker.cleanup()` call in the `finally:` block. -/
  tcCleanup : Option PyExc
  /-- the `self.cleanup()` call in the `finally:` block. -/
  cleanupHook : HookOut M

/-- The attribute state of an `MPFProcess` object, as set up by `__init__`
and mutated by `run`.  Handle-valued attributes are modelled by whether
they are `None` (the supervision code only ever tests them against `None`). -/
structure PState (M : Type) where
  /-- `self._out` (outbound queue handle). -/
  outQ : Option Unit
  /-- `self._inp` (inbound queue handle). -/
  inpQ : Option Unit
  /-- `self._loop_wait_period`. -/
  loop_wait_period : Option Nat
  /-- `self.name`. -/
  name : String
  /-- `self.shared_memory`. -/
  shared_memory : Option M
  /-- `self.task_checker`. -/
  task_checker : Option Unit
  /-- `self.results_publisher`. -/
  results_publisher : Option Unit
  /-- `self._MPFLog`. -/
  mpfLog : Option Unit
deriving DecidableEq

namespace MPFProcess

/-- `MPFProcess.__init__(process_name, loop_wait_period)`: every handle
attribute starts as `None` (defaults in the source: `process_name =
"unnamed_process"`, `loop_wait_period = None`). -/
def construct {M : Type} (process_name : String) (loop_wait_period : Option Nat) :
    PState M :=
  { outQ := none
    inpQ := none
    loop_wait_period := loop_wait_period
    name := process_name
    shared_memory := none
    task_checker := none
    results_publisher := none
    mpfLog := none }

/-- `MPFProcess.set_shared_memory(self, memory)`. -/
def set_shared_memory {M : Type} (s : PState M) (memory : Option M) : PState M :=
  { s with shared_memory := memory }

/-- Default `MPFProcess.init`: `raise NotImplementedError`. -/
def init : Except PyExc Unit := .error .notImplementedError

/-- Default `MPFProcess.update(header, data)`: `raise NotImplementedError`. -/
def update (header : String) (data : Nat) : Except PyExc Unit :=
  .error .notImplementedError

/-- Default `MPFProcess.step`: `raise NotImplementedError`. -/
def step : Except PyExc Unit := .error .notImplementedError

/-- Default `MPFProcess.publish`: `raise NotImplementedError`. -/
def publish : Except PyExc Unit := .error .notImplementedError

/-- Default `MPFProcess.cleanup`: `raise NotImplementedError`. -/
def cleanup : Except PyExc Unit := .error .notImplementedError

end MPFProcess

/-- Apply a hook's effect on `self.shared_memory`. -/
def applyMemEff {M : Type} (s : PState M) (eff : Option (Option M)) : PState M :=
  match eff with
  | none => s
  | some v => { s with shared_memory := v }

/-- How one loop iteration ends. -/
inductive IterExit where
  /-- iteration completed; the loop continues. -/
  | next
  /-- the stop sentinel was received; `break` executed. -/
  | brk
  /-- an exception escaped the iteration. -/
  | exc (e : PyExc)
deriving DecidableEq

/-- The unconditional tail of a loop iteration: `self.step()`, then
`self.publish()`, then `time.sleep(...)` when `_loop_wait_period is not None`. -/
def stepPhase {M : Type} (wait : Option Nat) (ie : IterEnv M) (s : PState M) :
    List Event × PState M × IterExit :=
  let s1 := applyMemEff s ie.stepHook.memEff
  match ie.stepHook.raises with
  | some e => ([.stepCall], s1, .exc e)
  | none =>
    let s2 := applyMemEff s1 ie.publishHook.memEff
    match ie.publishHook.raises with
    | some e => ([.stepCall, .publishCall], s2, .exc e)
    | none =>
      match wait with
      | none => ([.stepCall, .publishCall], s2, .next)
      | some _ =>
        match ie.sleepRaises with
        | some e => ([.stepCall, .publishCall, .sleepCall], s2, .exc e)
        | none => ([.stepCall, .publishCall, .sleepCall], s2, .next)

/-- One iteration of the `while True:` loop: poll the task checker; on the
sentinel header `"STOP PROCESS"` log and `break`; on any other new message
call `self.update(header, latest_data)`; then `stepPhase`. -/
def runIter {M : Type} (wait : Option Nat) (ie : IterEnv M) (s : PState M) :
    List Event × PState M × IterExit :=
  match ie.poll with
  | .pollRaise => ([.pollCall], s, .exc .hookError)
  | .noMsg =>
    let (es, s', x) := stepPhase wait ie s
    (.pollCall :: es, s', x)
  | .newMsg h d =>
    if h = "STOP PROCESS" then
      ([.pollCall, .debug .stopSignalMsg], s, .brk)
    else
      let s1 := applyMemEff s ie.updateHook.memEff
      match ie.updateHook.raises with
      | some e => ([.pollCall, .updateCall h d], s1, .exc e)
      | none =>
        let (es, s', x) := stepPhase wait ie s1
        (.pollCall :: .updateCall h d :: es, s', x)

/-- How the `while True:` loop ends. -/
inductive LoopExit where
  /-- `break` on the stop sentinel. -/
  | broke
  /-- an exception escaped an iteration. -/
  | excOut (e : PyExc)
  /-- fuel exhausted: the loop is still running. -/
  | fuelOut
deriving DecidableEq

/-- The `while True:` loop, iteration `i` onwards, with `fuel` bounding the
number of iterations interpreted. -/
def runLoop {M : Type} (env : RunEnv M) : Nat → Nat → PState M →
    List Event × PState M × LoopExit
  | 0, _, s => ([], s, .fuelOut)
  | fuel + 1, i, s =>
    match runIter s.loop_wait_period (env.iters i) s with
    | (es, s', .next) =>
      let (es2, s2, x) := runLoop env fuel (i + 1) s'
      (es ++ es2, s2, x)
    | (es, s', .brk) => (es, s', .broke)
    | (es, s', .exc e) => (es, s', .excOut e)

/-- How the `try:` body of `run()` ends. -/
inductive TryExit where
  /-- fell through normally (loop `break`). -/
  | normal
  /-- an exception was raised somewhere in the body. -/
  | excT (e : PyExc)
  /-- fuel exhausted inside the loop. -/
  | fuelOutT
deriving DecidableEq

/-- The state after the assignments `self.task_checker = ...`,
`self.results_publisher = ...`, `self._MPFLog = ...` at the top of the
`try:` body all succeeded. -/
def startState {M : Type} (s : PState M) : PState M :=
  { s with
    task_checker := some ()
    results_publisher := some ()
    mpfLog := some () }

/-- The events preceding the loop when initialization succeeds. -/
def tryPre : List Event :=
  [.debug .initializingMsg, .initCall, .debug .initializedMsg]

/-- The `try:` body of `run()`: construct `self.task_checker` and
`self.results_publisher`, assign `self._MPFLog` (always succeeds), log,
call `self.init()`, log, then enter the loop. -/
def tryBody {M : Type} (env : RunEnv M) (fuel : Nat) (s : PState M) :
    List Event × PState M × TryExit :=
  match env.tcCtor with
  | some e => ([], s, .excT e)
  | none =>
    match env.rpCtor with
    | some e => ([], { s with task_checker := some () }, .excT e)
    | none =>
      let s4 := applyMemEff (startState s) env.initHook.memEff
      match env.initHook.raises with
      | some e => ([.debug .initializingMsg, .initCall], s4, .excT e)
      | none =>
        match runLoop env fuel 0 s4 with
        | (es, s5, .broke) => (tryPre ++ es, s5, .normal)
        | (es, s5, .excOut e) => (tryPre ++ es, s5, .excT e)
        | (es, s5, .fuelOut) => (tryPre ++ es, s5, .fuelOutT)

/-- The `except:` handler: format the traceback and call
`self._MPFLog.critical(...)`.  When `_MPFLog is None` this dereference
itself raises `AttributeError` (returned as the pending exception);
otherwise the caught exception is fully handled. -/
def runExcept {M : Type} (s : PState M) (e : PyExc) :
    List Event × Option PyExc :=
  match s.mpfLog with
  | some _ => ([.critical s.name e], none)
  | none => ([], some .attributeError)

/-- How the `finally:` block ends. -/
inductive FinOut where
  /-- the trailing `return` executed (this discards any pending exception). -/
  | ret
  /-- an exception was raised inside the `finally:` block and propagates. -/
  | raisedFin (e : PyExc)
deriving DecidableEq

/-- Tail of the `finally:` block, after the task-checker paragraph: drop
`self.results_publisher` when non-None, then `self._MPFLog.debug(...)`
(raising `AttributeError` when the logger is `None`), then `self.cleanup()`,
then the final debug and `return`. -/
def finTail {M : Type} (env : RunEnv M) (pre : List Event) (s : PState M) :
    List Event × PState M × FinOut :=
  let (es1, s1) :=
    match s.results_publisher with
    | some _ => ([Event.dropResultsPublisher],
        { s with results_publisher := none })
    | none => ([], s)
  match s1.mpfLog with
  | none => (pre ++ es1, s1, .raisedFin .attributeError)
  | some _ =>
    let s2 := applyMemEff s1 env.cleanupHook.memEff
    match env.cleanupHook.raises with
    | some e =>
      (pre ++ es1 ++ [.debug .cleaningUpMsg, .workerCleanupCall], s2,
        .raisedFin e)
    | none =>
      (pre ++ es1 ++ [.debug .cleaningUpMsg, .workerCleanupCall,
        .debug .exitingMsg], s2, .ret)

/-- The `finally:` block: when `self.task_checker is not None`, log (the
dereference raises `AttributeError` when the logger is `None`), call
`self.task_checker.cleanup()`, `del` it, log; then `finTail`. -/
def runFinally {M : Type} (env : RunEnv M) (s : PState M) :
    List Event × PState M × FinOut :=
  match s.task_checker with
  | none => finTail env [] s
  | some _ =>
    match s.mpfLog with
    | none => ([], s, .raisedFin .attributeError)
    | some _ =>
      match env.tcCleanup with
      | some e =>
        ([.debug .cleaningTaskCheckerMsg, .tcCleanupCall], s, .raisedFin e)
      | none =>
        finTail env
          [.debug .cleaningTaskCheckerMsg, .tcCleanupCall, .dropTaskChecker,
            .debug .cleanedTaskCheckerMsg]
          { s with task_checker := none }

/-- How `run()` itself ends. -/
inductive Outcome where
  /-- returned normally (the `return` in `finally:` executed; in Python this
  also swallows any pending exception). -/
  | returned
  /-- an exception propagated out of `run()`. -/
  | raisedOut (e : PyExc)
  /-- fuel exhausted: the loop is still running, no teardown yet. -/
  | outOfFuel
deriving DecidableEq

/-- Result of the `finally:` block lifted to the result of `run()`. -/
def finToOutcome : FinOut → Outcome
  | .ret => .returned
  | .raisedFin e => .raisedOut e

/-- `MPFProcess.run(self)`: the `try:` body, then on exception the
`except:` handler, then in all cases the `finally:` block.  A pending
exception raised by the handler itself is either replaced by an exception
of the `finally:` block or discarded by its trailing `return`. -/
def MPFProcess.run {M : Type} (env : RunEnv M) (fuel : Nat) (s : PState M) :
    List Event × PState M × Outcome :=
  match tryBody env fuel s with
  | (es, s1, .fuelOutT) => (es, s1, .outOfFuel)
  | (es, s1, .normal) =>
    let (es2, s2, f) := runFinally env s1
    (es ++ es2, s2, finToOutcome f)
  | (es, s1, .excT e) =>
    let (esh, _pending) := runExcept s1 e
    let (es2, s2, f) := runFinally env s1
    (es ++ esh ++ es2, s2, finToOutcome f)

/-! ## Derived predicates -/

/-- The events that invoke work on the worker or the channel: polling,
`update`, `step`, `publish`. -/
def isWorkEvent : Event → Bool
  | .pollCall => true
  | .updateCall _ _ => true
  | .stepCall => true
  | .publishCall => true
  | _ => false

/-- The events a loop iteration can emit.  An `updateCall` is a loop event
only with a non-sentinel header: the sentinel `break`s before `update`. -/
def isLoopEvent : Event → Bool
  | .pollCall => true
  | .updateCall h _ => h != "STOP PROCESS"
  | .stepCall => true
  | .publishCall => true
  | .sleepCall => true
  | .debug .stopSignalMsg => true
  | _ => false

/-- The events the `try:` body can emit. -/
def isTryEvent (ev : Event) : Bool :=
  isLoopEvent ev || ev == .debug .initializingMsg || ev == .initCall ||
    ev == .debug .initializedMsg

/-- The teardown actions of the `finally:` block, as named by the spec:
task-checker cleanup, the two drops, and the worker's cleanup. -/
def isTeardownAction : Event → Bool
  | .tcCleanupCall => true
  | .dropTaskChecker => true
  | .dropResultsPublisher => true
  | .workerCleanupCall => true
  | _ => false

/-- A loop iteration that completes: the poll does not raise, any delivered
message is not the stop sentinel and its `update` returns, `step` and
`publish` return, and the sleep (when a wait period is configured) returns. -/
def iterCompletes {M : Type} (wait : Option Nat) (ie : IterEnv M) : Prop :=
  ie.poll ≠ .pollRaise ∧
  (∀ h d, ie.poll = .newMsg h d → h ≠ "STOP PROCESS" ∧ ie.updateHook.raises = none) ∧
  ie.stepHook.raises = none ∧ ie.publishHook.raises = none ∧
  (wait.isSome → ie.sleepRaises = none)

/-- Erase the `shared_memory` field; two states agreeing after `forgetMem`
agree on everything the supervision code itself reads or writes. -/
def forgetMem {M : Type} (s : PState M) : PState M :=
  { s with shared_memory := none }

/-- No hook of this environment writes to `self.shared_memory`. -/
def noMemWrites {M : Type} (env : RunEnv M) : Prop :=
  env.initHook.memEff = none ∧ env.cleanupHook.memEff = none ∧
  ∀ i, (env.iters i).updateHook.memEff = none ∧
    (env.iters i).stepHook.memEff = none ∧
    (env.iters i).publishHook.memEff = none

/-- Translate the loop's exit into the `try:` body's exit. -/
def loopToTry : LoopExit → TryExit
  | .broke => .normal
  | .excOut e => .excT e
  | .fuelOut => .fuelOutT

/-- Closed form of the events the `finTail` phase appends after `pre`. -/
def finTailTrace {M : Type} (env : RunEnv M) (s : PState M) : List Event :=
  (if s.results_publisher.isSome then [Event.dropResultsPublisher] else []) ++
    (match s.mpfLog with
     | none => []
     | some _ =>
       match env.cleanupHook.raises with
       | some _ => [Event.debug .cleaningUpMsg, Event.workerCleanupCall]
       | none => [Event.debug .cleaningUpMsg, Event.workerCleanupCall,
           Event.debug .exitingMsg])

/-- Closed form of how the `finTail` phase ends. -/
def finTailOut {M : Type} (env : RunEnv M) (s : PState M) : FinOut :=
  match s.mpfLog with
  | none => .raisedFin .attributeError
  | some _ =>
    match env.cleanupHook.raises with
    | some e => .raisedFin e
    | none => .ret

/-- Closed form of the `finally:` block's event trace. -/
def runFinallyTrace {M : Type} (env : RunEnv M) (s : PState M) : List Event :=
  match s.task_checker with
  | none => finTailTrace env s
  | some _ =>
    match s.mpfLog with
    | none => []
    | some _ =>
      match env.tcCleanup with
      | some _ => [.debug .cleaningTaskCheckerMsg, .tcCleanupCall]
      | none =>
        [.debug .cleaningTaskCheckerMsg, .tcCleanupCall, .dropTaskChecker,
          .debug .cleanedTaskCheckerMsg] ++
          finTailTrace env { s with task_checker := none }

/-- Closed form of how the `finally:` block ends. -/
def runFinallyOut {M : Type} (env : RunEnv M) (s : PState M) : FinOut :=
  match s.task_checker with
  | none => finTailOut env s
  | some _ =>
    match s.mpfLog with
    | none => .raisedFin .attributeError
    | some _ =>
      match env.tcCleanup with
      | some e => .raisedFin e
      | none => finTailOut env { s with task_checker := none }

/-! ## Concrete environments used for witnesses and counterexamples -/

/-- A hook call that returns normally and leaves `shared_memory` alone. -/
def hookOk : HookOut Unit := ⟨none, none⟩

/-- An iteration with no new message and every call succeeding. -/
def iterQuiet : IterEnv Unit := ⟨.noMsg, hookOk, hookOk, hookOk, none⟩

/-- An iteration whose poll delivers the stop sentinel. -/
def iterStop : IterEnv Unit := ⟨.newMsg "STOP PROCESS" 0, hookOk, hookOk, hookOk, none⟩

/-- An iteration whose poll delivers the message `("A", 1)`. -/
def iterMsgA : IterEnv Unit := ⟨.newMsg "A" 1, hookOk, hookOk, hookOk, none⟩

/-- Everything succeeds; the first poll delivers the stop sentinel. -/
def envStop : RunEnv Unit :=
  ⟨none, none, hookOk, fun _ => iterStop, none, hookOk⟩

/-- First iteration delivers `("A", 1)`, second the stop sentinel. -/
def envWork : RunEnv Unit :=
  ⟨none, none, hookOk, fun i => if i = 0 then iterMsgA else iterStop, none, hookOk⟩

/-- Stop sentinel on the first poll, but `task_checker.cleanup()` raises. -/
def envStopTcFail : RunEnv Unit :=
  ⟨none, none, hookOk, fun _ => iterStop, some .hookError, hookOk⟩

/-- Constructors succeed, `init()` raises. -/
def envInitFail : RunEnv Unit :=
  ⟨none, none, ⟨some .hookError, none⟩, fun _ => iterStop, none, hookOk⟩

/-- `init()` raises, and `task_checker.cleanup()` also raises. -/
def envInitFailTcFail : RunEnv Unit :=
  ⟨none, none, ⟨some .hookError, none⟩, fun _ => iterStop, some .hookError, hookOk⟩

/-- Construction of the task checker itself raises. -/
def envCtorFail : RunEnv Unit :=
  ⟨some .hookError, none, hookOk, fun _ => iterStop, none, hookOk⟩

/-- The worker's own `cleanup()` raises; everything else succeeds. -/
def envCleanupFail : RunEnv Unit :=
  ⟨none, none, hookOk, fun _ => iterStop, none, ⟨some .hookError, none⟩⟩

/-- The freshly constructed state of a worker named `"w1"` with no wait period. -/
def state0 : PState Unit := MPFProcess.construct "w1" none

example :
    (MPFProcess.run envStop 5 state0).1 =
      [.debug .initializingMsg, .initCall, .debug .initializedMsg,
       .pollCall, .debug .stopSignalMsg,
       .debug .cleaningTaskCheckerMsg, .tcCleanupCall, .dropTaskChecker,
       .debug .cleanedTaskCheckerMsg, .dropResultsPublisher,
       .debug .cleaningUpMsg, .workerCleanupCall, .debug .exitingMsg] := by
  decide

example : (MPFProcess.run envStop 5 state0).2.2 = .returned := by decide

example : (MPFProcess.run envStopTcFail 5 state0).2.2 = .raisedOut .hookError := by
  decide

example : (MPFProcess.run envStopTcFail 5 state0).1.count .workerCleanupCall = 0 := by
  decide

example : (MPFProcess.run envCtorFail 5 state0).2.2 = .raisedOut .attributeError := by
  decide

example : (MPFProcess.run envCtorFail 5 state0).1 = [] := by decide

example :
    (MPFProcess.run envInitFail 5 state0).1 =
      [.debug .initializingMsg, .initCall, .critical "w1" .hookError,
       .debug .cleaningTaskCheckerMsg, .tcCleanupCall, .dropTaskChecker,
       .debug .cleanedTaskCheckerMsg, .dropResultsPublisher,
       .debug .cleaningUpMsg, .workerCleanupCall, .debug .exitingMsg] := by
  decide

example :
    (MPFProcess.run envWork 5 state0).1.count (.updateCall "A" 1) = 1 := by decide

example : (MPFProcess.run envWork 5 state0).1.count .stepCall = 1 := by decide

example : (MPFProcess.run envWork 0 state0).2.2 = .outOfFuel := by decide

/-! ## Frame lemmas: the supervision code and the `shared_memory` field -/

theorem forgetMem_shared {M : Type} (s : PState M) :
    (forgetMem s).shared_memory = none := rfl

theorem forgetMem_task_checker {M : Type} (s : PState M) :
    (forgetMem s).task_checker = s.task_checker := rfl

theorem forgetMem_results_publisher {M : Type} (s : PState M) :
    (forgetMem s).results_publisher = s.results_publisher := rfl

theorem forgetMem_mpfLog {M : Type} (s : PState M) :
    (forgetMem s).mpfLog = s.mpfLog := rfl

theorem forgetMem_name {M : Type} (s : PState M) :
    (forgetMem s).name = s.name := rfl

theorem forgetMem_wait {M : Type} (s : PState M) :
    (forgetMem s).loop_wait_period = s.loop_wait_period := rfl

theorem applyMemEff_forget {M : Type} (s : PState M) (eff : Option (Option M)) :
    forgetMem (applyMemEff s eff) = forgetMem s := by
  cases eff <;> rfl

theorem applyMemEff_none {M : Type} (s : PState M) :
    applyMemEff s none = s := rfl

theorem stepPhase_forget {M : Type} (wait : Option Nat) (ie : IterEnv M)
    (s : PState M) : forgetMem (stepPhase wait ie s).2.1 = forgetMem s := by
  unfold stepPhase
  cases ie.stepHook.raises <;> cases ie.publishHook.raises <;>
    cases wait <;> cases ie.sleepRaises <;>
    simp [applyMemEff_forget]

theorem runIter_forget {M : Type} (wait : Option Nat) (ie : IterEnv M)
    (s : PState M) : forgetMem (runIter wait ie s).2.1 = forgetMem s := by
  unfold runIter
  cases hp : ie.poll with
  | pollRaise => rfl
  | noMsg => simp [stepPhase_forget]
  | newMsg h d =>
    by_cases hh : h = "STOP PROCESS"
    · simp [hh]
    · cases ie.updateHook.raises <;>
        simp [hh, applyMemEff_forget, stepPhase_forget,
          (applyMemEff_forget s ie.updateHook.memEff) ▸
            stepPhase_forget wait ie (applyMemEff s ie.updateHook.memEff)]

theorem runLoop_forget {M : Type} (env : RunEnv M) (fuel : Nat) :
    ∀ (i : Nat) (s : PState M), forgetMem (runLoop env fuel i s).2.1 = forgetMem s := by
  induction fuel with
  | zero => intro i s; rfl
  | succ n ih =>
    intro i s
    rcases h : runIter s.loop_wait_period (env.iters i) s with ⟨es, s', x⟩
    have hf : forgetMem s' = forgetMem s := by
      have := runIter_forget s.loop_wait_period (env.iters i) s
      rw [h] at this; exact this
    cases x with
    | next => simp [runLoop, h]; rw [ih (i + 1) s', hf]
    | brk => simp [runLoop, h]; exact hf
    | exc e => simp [runLoop, h]; exact hf

/-! ## Equation lemmas for the interpreter phases -/

theorem runIter_pollRaise {M : Type} {wait : Option Nat} {ie : IterEnv M}
    (s : PState M) (hp : ie.poll = .pollRaise) :
    runIter wait ie s = ([.pollCall], s, .exc .hookError) := by
  unfold runIter; rw [hp]

theorem runIter_noMsg {M : Type} {wait : Option Nat} {ie : IterEnv M}
    (s : PState M) (hp : ie.poll = .noMsg) :
    runIter wait ie s = (.pollCall :: (stepPhase wait ie s).1,
      (stepPhase wait ie s).2.1, (stepPhase wait ie s).2.2) := by
  unfold runIter; rw [hp]

theorem runIter_stop {M : Type} {wait : Option Nat} {ie : IterEnv M}
    {d : Nat} (s : PState M) (hp : ie.poll = .newMsg "STOP PROCESS" d) :
    runIter wait ie s = ([.pollCall, .debug .stopSignalMsg], s, .brk) := by
  unfold runIter; rw [hp]; simp

theorem runIter_updateRaise {M : Type} {wait : Option Nat} {ie : IterEnv M}
    {h : String} {d : Nat} {e : PyExc} (s : PState M)
    (hp : ie.poll = .newMsg h d) (hh : h ≠ "STOP PROCESS")
    (hu : ie.updateHook.raises = some e) :
    runIter wait ie s = ([.pollCall, .updateCall h d],
      applyMemEff s ie.updateHook.memEff, .exc e) := by
  unfold runIter; rw [hp]; simp [hh, hu]

theorem runIter_updateOk {M : Type} {wait : Option Nat} {ie : IterEnv M}
    {h : String} {d : Nat} (s : PState M)
    (hp : ie.poll = .newMsg h d) (hh : h ≠ "STOP PROCESS")
    (hu : ie.updateHook.raises = none) :
    runIter wait ie s =
      (.pollCall :: .updateCall h d ::
          (stepPhase wait ie (applyMemEff s ie.updateHook.memEff)).1,
        (stepPhase wait ie (applyMemEff s ie.updateHook.memEff)).2.1,
        (stepPhase wait ie (applyMemEff s ie.updateHook.memEff)).2.2) := by
  unfold runIter; rw [hp]; simp [hh, hu]

theorem runLoop_zero {M : Type} (env : RunEnv M) (i : Nat) (s : PState M) :
    runLoop env 0 i s = ([], s, .fuelOut) := rfl

theorem runLoop_succ_next {M : Type} {env : RunEnv M} {fuel i : Nat}
    {s s' : PState M} {es : List Event}
    (h : runIter s.loop_wait_period (env.iters i) s = (es, s', .next)) :
    runLoop env (fuel + 1) i s =
      (es ++ (runLoop env fuel (i + 1) s').1, (runLoop env fuel (i + 1) s').2.1,
        (runLoop env fuel (i + 1) s').2.2) := by
  simp [runLoop, h]

theorem runLoop_succ_brk {M : Type} {env : RunEnv M} {fuel i : Nat}
    {s s' : PState M} {es : List Event}
    (h : runIter s.loop_wait_period (env.iters i) s = (es, s', .brk)) :
    runLoop env (fuel + 1) i s = (es, s', .broke) := by
  simp [runLoop, h]

theorem runLoop_succ_exc {M : Type} {env : RunEnv M} {fuel i : Nat}
    {s s' : PState M} {es : List Event} {e : PyExc}
    (h : runIter s.loop_wait_period (env.iters i) s = (es, s', .exc e)) :
    runLoop env (fuel + 1) i s = (es, s', .excOut e) := by
  simp [runLoop, h]

theorem tryBody_tcFail {M : Type} {env : RunEnv M} {e : PyExc} (fuel : Nat)
    (s : PState M) (h : env.tcCtor = some e) :
    tryBody env fuel s = ([], s, .excT e) := by
  unfold tryBody; rw [h]

theorem tryBody_rpFail {M : Type} {env : RunEnv M} {e : PyExc} (fuel : Nat)
    (s : PState M) (h1 : env.tcCtor = none) (h2 : env.rpCtor = some e) :
    tryBody env fuel s = ([], { s with task_checker := some () }, .excT e) := by
  unfold tryBody; rw [h1, h2]

theorem tryBody_initFail {M : Type} {env : RunEnv M} {e : PyExc} (fuel : Nat)
    (s : PState M) (h1 : env.tcCtor = none) (h2 : env.rpCtor = none)
    (h3 : env.initHook.raises = some e) :
    tryBody env fuel s = ([.debug .initializingMsg, .initCall],
      applyMemEff (startState s) env.initHook.memEff, .excT e) := by
  unfold tryBody; rw [h1, h2]; simp [h3]


theorem tryBody_loop {M : Type} {env : RunEnv M} (fuel : Nat)
    (s : PState M) (h1 : env.tcCtor = none) (h2 : env.rpCtor = none)
    (h3 : env.initHook.raises = none) :
    tryBody env fuel s =
      (tryPre ++ (runLoop env fuel 0
          (applyMemEff (startState s) env.initHook.memEff)).1,
        (runLoop env fuel 0 (applyMemEff (startState s) env.initHook.memEff)).2.1,
        loopToTry (runLoop env fuel 0
          (applyMemEff (startState s) env.initHook.memEff)).2.2) := by
  unfold tryBody; rw [h1, h2]; simp only [h3]
  rcases h : runLoop env fuel 0 (applyMemEff (startState s) env.initHook.memEff)
    with ⟨es, s5, x⟩
  cases x <;> simp [loopToTry]

theorem run_eq_fuelOut {M : Type} {env : RunEnv M} {fuel : Nat}
    {s s1 : PState M} {es : List Event}
    (h : tryBody env fuel s = (es, s1, .fuelOutT)) :
    MPFProcess.run env fuel s = (es, s1, .outOfFuel) := by
  unfold MPFProcess.run; rw [h]

theorem run_eq_normal {M : Type} {env : RunEnv M} {fuel : Nat}
    {s s1 : PState M} {es : List Event}
    (h : tryBody env fuel s = (es, s1, .normal)) :
    MPFProcess.run env fuel s =
      (es ++ (runFinally env s1).1, (runFinally env s1).2.1,
        finToOutcome (runFinally env s1).2.2) := by
  unfold MPFProcess.run; rw [h]

theorem run_eq_exc {M : Type} {env : RunEnv M} {fuel : Nat}
    {s s1 : PState M} {es : List Event} {e : PyExc}
    (h : tryBody env fuel s = (es, s1, .excT e)) :
    MPFProcess.run env fuel s =
      (es ++ (runExcept s1 e).1 ++ (runFinally env s1).1,
        (runFinally env s1).2.1, finToOutcome (runFinally env s1).2.2) := by
  unfold MPFProcess.run; rw [h]

/-! ## Which events each phase can emit -/

theorem stepPhase_mem {M : Type} (wait : Option Nat) (ie : IterEnv M)
    (s : PState M) :
    ∀ ev ∈ (stepPhase wait ie s).1, isLoopEvent ev = true := by
  unfold stepPhase
  cases ie.stepHook.raises <;> cases ie.publishHook.raises <;>
    cases wait <;> cases ie.sleepRaises <;>
    simp [isLoopEvent]

theorem runIter_mem {M : Type} (wait : Option Nat) (ie : IterEnv M)
    (s : PState M) :
    ∀ ev ∈ (runIter wait ie s).1, isLoopEvent ev = true := by
  intro ev hev
  cases hp : ie.poll with
  | pollRaise =>
    rw [runIter_pollRaise s hp] at hev
    simp at hev; simp [hev, isLoopEvent]
  | noMsg =>
    rw [runIter_noMsg s hp] at hev
    simp only [List.mem_cons] at hev
    rcases hev with h1 | h2
    · simp [h1, isLoopEvent]
    · exact stepPhase_mem wait ie s ev h2
  | newMsg h d =>
    by_cases hh : h = "STOP PROCESS"
    · subst hh
      rw [runIter_stop s hp] at hev
      simp at hev
      rcases hev with h1 | h1 <;> simp [h1, isLoopEvent]
    · cases hu : ie.updateHook.raises with
      | some e =>
        rw [runIter_updateRaise s hp hh hu] at hev
        simp at hev
        rcases hev with h1 | h1 <;> simp [h1, isLoopEvent, hh]
      | none =>
        rw [runIter_updateOk s hp hh hu] at hev
        simp only [List.mem_cons] at hev
        rcases hev with h1 | h1 | h1
        · simp [h1, isLoopEvent]
        · simp [h1, isLoopEvent, hh]
        · exact stepPhase_mem wait ie _ ev h1

theorem runLoop_mem {M : Type} (env : RunEnv M) (fuel : Nat) :
    ∀ (i : Nat) (s : PState M),
    ∀ ev ∈ (runLoop env fuel i s).1, isLoopEvent ev = true := by
  induction fuel with
  | zero => intro i s ev hev; simp [runLoop_zero] at hev
  | succ n ih =>
    intro i s ev hev
    rcases h : runIter s.loop_wait_period (env.iters i) s with ⟨es, s', x⟩
    have hmem : ∀ e ∈ es, isLoopEvent e = true := by
      have := runIter_mem s.loop_wait_period (env.iters i) s
      rw [h] at this; exact this
    cases x with
    | next =>
      rw [runLoop_succ_next h] at hev
      simp only [List.mem_append] at hev
      rcases hev with h1 | h2
      · exact hmem ev h1
      · exact ih (i + 1) s' ev h2
    | brk => rw [runLoop_succ_brk h] at hev; exact hmem ev hev
    | exc e => rw [runLoop_succ_exc h] at hev; exact hmem ev hev

theorem tryBody_mem {M : Type} (env : RunEnv M) (fuel : Nat) (s : PState M) :
    ∀ ev ∈ (tryBody env fuel s).1, isTryEvent ev = true := by
  intro ev hev
  cases h1 : env.tcCtor with
  | some e => rw [tryBody_tcFail fuel s h1] at hev; simp at hev
  | none =>
  cases h2 : env.rpCtor with
  | some e => rw [tryBody_rpFail fuel s h1 h2] at hev; simp at hev
  | none =>
  cases h3 : env.initHook.raises with
  | some e =>
    rw [tryBody_initFail fuel s h1 h2 h3] at hev
    simp at hev
    rcases hev with h4 | h4 <;> simp [h4, isTryEvent, isLoopEvent]
  | none =>
    rw [tryBody_loop fuel s h1 h2 h3] at hev
    simp only [tryPre, List.append_assoc, List.mem_append, List.mem_cons,
      List.not_mem_nil, or_false] at hev
    rcases hev with (h4 | h4 | h4) | h4
    · simp [h4, isTryEvent]
    · simp [h4, isTryEvent]
    · simp [h4, isTryEvent]
    · have := runLoop_mem env fuel 0
        (applyMemEff (startState s) env.initHook.memEff) ev h4
      simp [isTryEvent, this]

theorem finTail_trace_eq {M : Type} (env : RunEnv M) (pre : List Event)
    (s : PState M) : (finTail env pre s).1 = pre ++ finTailTrace env s := by
  obtain ⟨o, ip, w, n, m, t, r, l⟩ := s
  cases r <;> cases l <;> cases hc : env.cleanupHook.raises <;>
    simp [finTail, finTailTrace, hc]

theorem finTail_out_eq {M : Type} (env : RunEnv M) (pre : List Event)
    (s : PState M) : (finTail env pre s).2.2 = finTailOut env s := by
  obtain ⟨o, ip, w, n, m, t, r, l⟩ := s
  cases r <;> cases l <;> cases hc : env.cleanupHook.raises <;>
    simp [finTail, finTailOut, hc]

theorem runFinally_trace_eq {M : Type} (env : RunEnv M) (s : PState M) :
    (runFinally env s).1 = runFinallyTrace env s := by
  obtain ⟨o, ip, w, n, m, t, r, l⟩ := s
  cases t with
  | none =>
    have := finTail_trace_eq env [] ⟨o, ip, w, n, m, none, r, l⟩
    simp [runFinally, runFinallyTrace, this]
  | some u =>
    cases l with
    | none => simp [runFinally, runFinallyTrace]
    | some v =>
      cases htc : env.tcCleanup with
      | some e => simp [runFinally, runFinallyTrace, htc]
      | none =>
        have := finTail_trace_eq env
          [Event.debug .cleaningTaskCheckerMsg, Event.tcCleanupCall,
            Event.dropTaskChecker, Event.debug .cleanedTaskCheckerMsg]
          ⟨o, ip, w, n, m, none, r, some v⟩
        simp [runFinally, runFinallyTrace, htc, this]

theorem runFinally_out_eq {M : Type} (env : RunEnv M) (s : PState M) :
    (runFinally env s).2.2 = runFinallyOut env s := by
  obtain ⟨o, ip, w, n, m, t, r, l⟩ := s
  cases t with
  | none =>
    have := finTail_out_eq env [] ⟨o, ip, w, n, m, none, r, l⟩
    simp [runFinally, runFinallyOut, this]
  | some u =>
    cases l with
    | none => simp [runFinally, runFinallyOut]
    | some v =>
      cases htc : env.tcCleanup with
      | some e => simp [runFinally, runFinallyOut, htc]
      | none =>
        have := finTail_out_eq env
          [Event.debug .cleaningTaskCheckerMsg, Event.tcCleanupCall,
            Event.dropTaskChecker, Event.debug .cleanedTaskCheckerMsg]
          ⟨o, ip, w, n, m, none, r, some v⟩
        simp [runFinally, runFinallyOut, htc, this]

theorem finTailTrace_mem {M : Type} (env : RunEnv M) (s : PState M) :
    ∀ ev ∈ finTailTrace env s, isWorkEvent ev = false := by
  obtain ⟨o, ip, w, n, m, t, r, l⟩ := s
  cases r <;> cases l <;> cases hc : env.cleanupHook.raises <;>
    simp [finTailTrace, hc, isWorkEvent]

theorem runFinally_mem {M : Type} (env : RunEnv M) (s : PState M) :
    ∀ ev ∈ (runFinally env s).1, isWorkEvent ev = false := by
  intro ev hev
  rw [runFinally_trace_eq] at hev
  obtain ⟨o, ip, w, n, m, t, r, l⟩ := s
  cases t with
  | none => exact finTailTrace_mem env _ ev hev
  | some u =>
    cases l with
    | none => simp [runFinallyTrace] at hev
    | some v =>
      cases htc : env.tcCleanup with
      | some e =>
        simp [runFinallyTrace, htc] at hev
        rcases hev with h1 | h1 <;> simp [h1, isWorkEvent]
      | none =>
        simp only [runFinallyTrace, htc, List.mem_append, List.mem_cons,
          List.not_mem_nil, or_false] at hev
        rcases hev with (h1 | h1 | h1 | h1) | h1
        · simp [h1, isWorkEvent]
        · simp [h1, isWorkEvent]
        · simp [h1, isWorkEvent]
        · simp [h1, isWorkEvent]
        · exact finTailTrace_mem env _ ev h1

/-! ## Counting helper lemmas -/

theorem count_zero_of_all {l : List Event} {P : Event → Bool}
    (h : ∀ ev ∈ l, P ev = true) {a : Event} (ha : P a = false) :
    l.count a = 0 := by
  rw [List.count_eq_zero]
  intro hmem
  rw [h a hmem] at ha
  exact absurd ha (by simp)

theorem runExcept_trace_log {M : Type} {s : PState M} (e : PyExc)
    (hl : s.mpfLog = some ()) : (runExcept s e).1 = [.critical s.name e] := by
  unfold runExcept; rw [hl]

theorem runExcept_trace_noLog {M : Type} {s : PState M} (e : PyExc)
    (hl : s.mpfLog = none) : (runExcept s e).1 = [] := by
  unfold runExcept; rw [hl]

theorem tryBody_count_zero {M : Type} (env : RunEnv M) (fuel : Nat)
    (s : PState M) {a : Event} (ha : isTryEvent a = false) :
    (tryBody env fuel s).1.count a = 0 :=
  count_zero_of_all (tryBody_mem env fuel s) ha

theorem runFinally_count_work_zero {M : Type} (env : RunEnv M) (s : PState M)
    {a : Event} (ha : isWorkEvent a = true) : (runFinally env s).1.count a = 0 := by
  rw [List.count_eq_zero]
  intro hmem
  rw [runFinally_mem env s a hmem] at ha
  exact absurd ha (by simp)

theorem finTailTrace_count_cleanup {M : Type} (env : RunEnv M) (s : PState M)
    (hl : s.mpfLog = some ()) :
    (finTailTrace env s).count .workerCleanupCall = 1 := by
  obtain ⟨o, ip, w, n, m, t, r, l⟩ := s
  simp only at hl
  subst hl
  cases r <;> cases hc : env.cleanupHook.raises <;>
    simp [finTailTrace, hc, List.count_append]

theorem runFinallyTrace_count_cleanup {M : Type} (env : RunEnv M) (s : PState M)
    (hl : s.mpfLog = some ()) (htc : env.tcCleanup = none) :
    (runFinallyTrace env s).count .workerCleanupCall = 1 := by
  rcases ht : s.task_checker with u | u
  · rw [runFinallyTrace]
    rw [ht]
    exact finTailTrace_count_cleanup env s hl
  · rw [runFinallyTrace, ht, hl, htc, List.count_append,
      finTailTrace_count_cleanup env _ rfl]
    decide

theorem runFinally_count_cleanup {M : Type} (env : RunEnv M) (s : PState M)
    (hl : s.mpfLog = some ()) (htc : env.tcCleanup = none) :
    (runFinally env s).1.count .workerCleanupCall = 1 := by
  rw [runFinally_trace_eq]
  exact runFinallyTrace_count_cleanup env s hl htc

theorem runFinallyTrace_noLog {M : Type} (env : RunEnv M) (s : PState M)
    (hl : s.mpfLog = none) (hr : s.results_publisher = none) :
    runFinallyTrace env s = [] := by
  obtain ⟨o, ip, w, n, m, t, r, l⟩ := s
  simp only at hl hr
  subst hl; subst hr
  cases t <;> simp [runFinallyTrace, finTailTrace]

/-! ## Fields of the state reached by the `try:` body -/

theorem fields_of_forget {M : Type} {a b : PState M}
    (h : forgetMem a = forgetMem b) :
    a.outQ = b.outQ ∧ a.inpQ = b.inpQ ∧
    a.loop_wait_period = b.loop_wait_period ∧ a.name = b.name ∧
    a.task_checker = b.task_checker ∧
    a.results_publisher = b.results_publisher ∧ a.mpfLog = b.mpfLog := by
  obtain ⟨o, ip, w, n, m, t, r, l⟩ := a
  obtain ⟨o2, ip2, w2, n2, m2, t2, r2, l2⟩ := b
  simp only [forgetMem, PState.mk.injEq] at h
  simp only [PState.mk.injEq]
  exact ⟨h.1, h.2.1, h.2.2.1, h.2.2.2.1, h.2.2.2.2.2.1, h.2.2.2.2.2.2.1,
    h.2.2.2.2.2.2.2⟩

theorem forget_of_fields {M : Type} {a b : PState M}
    (h1 : a.outQ = b.outQ) (h2 : a.inpQ = b.inpQ)
    (h3 : a.loop_wait_period = b.loop_wait_period) (h4 : a.name = b.name)
    (h5 : a.task_checker = b.task_checker)
    (h6 : a.results_publisher = b.results_publisher) (h7 : a.mpfLog = b.mpfLog) :
    forgetMem a = forgetMem b := by
  obtain ⟨o, ip, w, n, m, t, r, l⟩ := a
  obtain ⟨o2, ip2, w2, n2, m2, t2, r2, l2⟩ := b
  simp only at h1 h2 h3 h4 h5 h6 h7
  subst h1; subst h2; subst h3; subst h4; subst h5; subst h6; subst h7
  rfl

theorem tryBody_fields {M : Type} (env : RunEnv M) (fuel : Nat) (s : PState M)
    (h1 : env.tcCtor = none) (h2 : env.rpCtor = none) :
    (tryBody env fuel s).2.1.mpfLog = some () ∧
    (tryBody env fuel s).2.1.task_checker = some () ∧
    (tryBody env fuel s).2.1.results_publisher = some () ∧
    (tryBody env fuel s).2.1.name = s.name := by
  cases h3 : env.initHook.raises with
  | some e =>
    rw [tryBody_initFail fuel s h1 h2 h3]
    have hf : forgetMem (applyMemEff (startState s) env.initHook.memEff) =
        forgetMem (startState s) := applyMemEff_forget _ _
    obtain ⟨-, -, -, hn, ht, hr, hl⟩ := fields_of_forget hf
    refine ⟨?_, ?_, ?_, ?_⟩
    · rw [hl]; rfl
    · rw [ht]; rfl
    · rw [hr]; rfl
    · rw [hn]; rfl
  | none =>
    rw [tryBody_loop fuel s h1 h2 h3]
    have hf : forgetMem (runLoop env fuel 0
        (applyMemEff (startState s) env.initHook.memEff)).2.1 =
        forgetMem (startState s) := by
      rw [runLoop_forget, applyMemEff_forget]
    obtain ⟨-, -, -, hn, ht, hr, hl⟩ := fields_of_forget hf
    refine ⟨?_, ?_, ?_, ?_⟩
    · rw [hl]; rfl
    · rw [ht]; rfl
    · rw [hr]; rfl
    · rw [hn]; rfl

/-! ## The supervision code never reads `shared_memory` -/

theorem stepPhase_indep {M : Type} (wait : Option Nat) (ie : IterEnv M)
    (s₁ s₂ : PState M) :
    (stepPhase wait ie s₁).1 = (stepPhase wait ie s₂).1 ∧
    (stepPhase wait ie s₁).2.2 = (stepPhase wait ie s₂).2.2 := by
  unfold stepPhase
  cases ie.stepHook.raises <;> cases ie.publishHook.raises <;>
    cases wait <;> cases ie.sleepRaises <;> simp

theorem runIter_indep {M : Type} (wait : Option Nat) (ie : IterEnv M)
    (s₁ s₂ : PState M) :
    (runIter wait ie s₁).1 = (runIter wait ie s₂).1 ∧
    (runIter wait ie s₁).2.2 = (runIter wait ie s₂).2.2 := by
  cases hp : ie.poll with
  | pollRaise => rw [runIter_pollRaise s₁ hp, runIter_pollRaise s₂ hp]; exact ⟨rfl, rfl⟩
  | noMsg =>
    rw [runIter_noMsg s₁ hp, runIter_noMsg s₂ hp]
    obtain ⟨h1, h2⟩ := stepPhase_indep wait ie s₁ s₂
    exact ⟨by rw [h1], h2⟩
  | newMsg h d =>
    by_cases hh : h = "STOP PROCESS"
    · subst hh
      rw [runIter_stop s₁ hp, runIter_stop s₂ hp]; exact ⟨rfl, rfl⟩
    · cases hu : ie.updateHook.raises with
      | some e =>
        rw [runIter_updateRaise s₁ hp hh hu, runIter_updateRaise s₂ hp hh hu]
        exact ⟨rfl, rfl⟩
      | none =>
        rw [runIter_updateOk s₁ hp hh hu, runIter_updateOk s₂ hp hh hu]
        obtain ⟨h1, h2⟩ := stepPhase_indep wait ie
          (applyMemEff s₁ ie.updateHook.memEff) (applyMemEff s₂ ie.updateHook.memEff)
        exact ⟨by rw [h1], h2⟩

theorem runLoop_indep {M : Type} (env : RunEnv M) (fuel : Nat) :
    ∀ (i : Nat) (s₁ s₂ : PState M), forgetMem s₁ = forgetMem s₂ →
    (runLoop env fuel i s₁).1 = (runLoop env fuel i s₂).1 ∧
    (runLoop env fuel i s₁).2.2 = (runLoop env fuel i s₂).2.2 ∧
    forgetMem (runLoop env fuel i s₁).2.1 = forgetMem (runLoop env fuel i s₂).2.1 := by
  induction fuel with
  | zero => intro i s₁ s₂ h; exact ⟨rfl, rfl, h⟩
  | succ n ih =>
    intro i s₁ s₂ h
    have hw : s₁.loop_wait_period = s₂.loop_wait_period :=
      (fields_of_forget h).2.2.1
    rcases h₁ : runIter s₁.loop_wait_period (env.iters i) s₁ with ⟨es₁, t₁, x₁⟩
    rcases h₂ : runIter s₂.loop_wait_period (env.iters i) s₂ with ⟨es₂, t₂, x₂⟩
    have h₁' : runIter s₂.loop_wait_period (env.iters i) s₁ = (es₁, t₁, x₁) := by
      rw [← hw]; exact h₁
    have hind := runIter_indep s₂.loop_wait_period (env.iters i) s₁ s₂
    rw [h₁', h₂] at hind
    obtain ⟨hes, hx⟩ := hind
    simp only at hes hx
    subst hes; subst hx
    have hft : forgetMem t₁ = forgetMem t₂ := by
      have f₁ := runIter_forget s₂.loop_wait_period (env.iters i) s₁
      have f₂ := runIter_forget s₂.loop_wait_period (env.iters i) s₂
      rw [h₁'] at f₁; rw [h₂] at f₂
      simp only at f₁ f₂
      rw [f₁, f₂]; exact h
    cases x₁ with
    | next =>
      rw [runLoop_succ_next h₁, runLoop_succ_next h₂]
      obtain ⟨a1, a2, a3⟩ := ih (i + 1) t₁ t₂ hft
      exact ⟨by rw [a1], a2, a3⟩
    | brk =>
      rw [runLoop_succ_brk h₁, runLoop_succ_brk h₂]
      exact ⟨rfl, rfl, hft⟩
    | exc e =>
      rw [runLoop_succ_exc h₁, runLoop_succ_exc h₂]
      exact ⟨rfl, rfl, hft⟩

theorem runExcept_indep {M : Type} (e : PyExc) (s₁ s₂ : PState M)
    (h : forgetMem s₁ = forgetMem s₂) :
    (runExcept s₁ e).1 = (runExcept s₂ e).1 := by
  obtain ⟨-, -, -, e4, -, -, e7⟩ := fields_of_forget h
  unfold runExcept
  rw [e7, e4]

theorem runFinally_indep {M : Type} (env : RunEnv M) (s₁ s₂ : PState M)
    (h : forgetMem s₁ = forgetMem s₂) :
    (runFinally env s₁).1 = (runFinally env s₂).1 ∧
    (runFinally env s₁).2.2 = (runFinally env s₂).2.2 ∧
    forgetMem (runFinally env s₁).2.1 = forgetMem (runFinally env s₂).2.1 := by
  obtain ⟨o, ip, w, n, m, t, r, l⟩ := s₁
  obtain ⟨o2, ip2, w2, n2, m2, t2, r2, l2⟩ := s₂
  obtain ⟨e1, e2, e3, e4, e5, e6, e7⟩ := fields_of_forget h
  simp only at e1 e2 e3 e4 e5 e6 e7
  subst e1; subst e2; subst e3; subst e4; subst e5; subst e6; subst e7
  refine ⟨?_, ?_, ?_⟩ <;>
    cases t <;> cases l <;> cases r <;> cases htc : env.tcCleanup <;>
      cases hc : env.cleanupHook.raises <;> cases hm : env.cleanupHook.memEff <;>
      simp [runFinally, finTail, htc, hc, hm, forgetMem, applyMemEff]

theorem tryBody_indep {M : Type} (env : RunEnv M) (fuel : Nat)
    (s₁ s₂ : PState M) (h : forgetMem s₁ = forgetMem s₂) :
    (tryBody env fuel s₁).1 = (tryBody env fuel s₂).1 ∧
    (tryBody env fuel s₁).2.2 = (tryBody env fuel s₂).2.2 ∧
    forgetMem (tryBody env fuel s₁).2.1 = forgetMem (tryBody env fuel s₂).2.1 := by
  obtain ⟨f1, f2, f3, f4, f5, f6, f7⟩ := fields_of_forget h
  have hstart : forgetMem (startState s₁) = forgetMem (startState s₂) :=
    forget_of_fields f1 f2 f3 f4 rfl rfl rfl
  cases h1 : env.tcCtor with
  | some e => rw [tryBody_tcFail fuel s₁ h1, tryBody_tcFail fuel s₂ h1]
              exact ⟨rfl, rfl, h⟩
  | none =>
  cases h2 : env.rpCtor with
  | some e =>
    rw [tryBody_rpFail fuel s₁ h1 h2, tryBody_rpFail fuel s₂ h1 h2]
    exact ⟨rfl, rfl, forget_of_fields f1 f2 f3 f4 rfl f6 f7⟩
  | none =>
  have hS : forgetMem (applyMemEff (startState s₁) env.initHook.memEff) =
      forgetMem (applyMemEff (startState s₂) env.initHook.memEff) := by
    rw [applyMemEff_forget, applyMemEff_forget]; exact hstart
  cases h3 : env.initHook.raises with
  | some e =>
    rw [tryBody_initFail fuel s₁ h1 h2 h3, tryBody_initFail fuel s₂ h1 h2 h3]
    exact ⟨rfl, rfl, hS⟩
  | none =>
    rw [tryBody_loop fuel s₁ h1 h2 h3, tryBody_loop fuel s₂ h1 h2 h3]
    obtain ⟨a1, a2, a3⟩ := runLoop_indep env fuel 0
      (applyMemEff (startState s₁) env.initHook.memEff)
      (applyMemEff (startState s₂) env.initHook.memEff) hS
    exact ⟨by rw [a1], by rw [a2], a3⟩

theorem run_indep {M : Type} (env : RunEnv M) (fuel : Nat)
    (s₁ s₂ : PState M) (h : forgetMem s₁ = forgetMem s₂) :
    (MPFProcess.run env fuel s₁).1 = (MPFProcess.run env fuel s₂).1 ∧
    (MPFProcess.run env fuel s₁).2.2 = (MPFProcess.run env fuel s₂).2.2 ∧
    forgetMem (MPFProcess.run env fuel s₁).2.1 =
      forgetMem (MPFProcess.run env fuel s₂).2.1 := by
  rcases h₁ : tryBody env fuel s₁ with ⟨es₁, t₁, x₁⟩
  rcases h₂ : tryBody env fuel s₂ with ⟨es₂, t₂, x₂⟩
  have hind := tryBody_indep env fuel s₁ s₂ h
  rw [h₁, h₂] at hind
  obtain ⟨hes, hx, hft⟩ := hind
  simp only at hes hx hft
  subst hes; subst hx
  obtain ⟨b1, b2, b3⟩ := runFinally_indep env t₁ t₂ hft
  cases x₁ with
  | fuelOutT =>
    rw [run_eq_fuelOut h₁, run_eq_fuelOut h₂]
    exact ⟨rfl, rfl, hft⟩
  | normal =>
    rw [run_eq_normal h₁, run_eq_normal h₂]
    exact ⟨by rw [b1], by rw [b2], b3⟩
  | excT e =>
    rw [run_eq_exc h₁, run_eq_exc h₂]
    exact ⟨by rw [b1, runExcept_indep e t₁ t₂ hft], by rw [b2], b3⟩

/-! ## When no hook writes `shared_memory`, `run` leaves it untouched -/

theorem stepPhase_state_noWrites {M : Type} (wait : Option Nat) (ie : IterEnv M)
    (s : PState M) (hs : ie.stepHook.memEff = none)
    (hp : ie.publishHook.memEff = none) : (stepPhase wait ie s).2.1 = s := by
  unfold stepPhase
  rw [hs, hp]
  cases ie.stepHook.raises <;> cases ie.publishHook.raises <;>
    cases wait <;> cases ie.sleepRaises <;> simp [applyMemEff]

theorem runIter_state_noWrites {M : Type} (wait : Option Nat) (ie : IterEnv M)
    (s : PState M) (hu : ie.updateHook.memEff = none)
    (hs : ie.stepHook.memEff = none) (hp : ie.publishHook.memEff = none) :
    (runIter wait ie s).2.1 = s := by
  cases hpo : ie.poll with
  | pollRaise => rw [runIter_pollRaise s hpo]
  | noMsg =>
    rw [runIter_noMsg s hpo]
    exact stepPhase_state_noWrites wait ie s hs hp
  | newMsg h d =>
    by_cases hh : h = "STOP PROCESS"
    · subst hh; rw [runIter_stop s hpo]
    · cases hur : ie.updateHook.raises with
      | some e =>
        rw [runIter_updateRaise s hpo hh hur]
        simp [hu, applyMemEff]
      | none =>
        rw [runIter_updateOk s hpo hh hur]
        simp only [hu, applyMemEff]
        exact stepPhase_state_noWrites wait ie s hs hp

theorem runLoop_state_noWrites {M : Type} (env : RunEnv M) (fuel : Nat)
    (hiter : ∀ j, (env.iters j).updateHook.memEff = none ∧
      (env.iters j).stepHook.memEff = none ∧
      (env.iters j).publishHook.memEff = none) :
    ∀ (i : Nat) (s : PState M), (runLoop env fuel i s).2.1 = s := by
  induction fuel with
  | zero => intro i s; rfl
  | succ n ih =>
    intro i s
    rcases h : runIter s.loop_wait_period (env.iters i) s with ⟨es, s', x⟩
    have hst : s' = s := by
      have := runIter_state_noWrites s.loop_wait_period (env.iters i) s
        (hiter i).1 (hiter i).2.1 (hiter i).2.2
      rw [h] at this; exact this
    subst hst
    cases x with
    | next => rw [runLoop_succ_next h]; exact ih (i + 1) _
    | brk => rw [runLoop_succ_brk h]
    | exc e => rw [runLoop_succ_exc h]

theorem tryBody_shared_noWrites {M : Type} (env : RunEnv M) (fuel : Nat)
    (s : PState M) (hi : env.initHook.memEff = none)
    (hiter : ∀ j, (env.iters j).updateHook.memEff = none ∧
      (env.iters j).stepHook.memEff = none ∧
      (env.iters j).publishHook.memEff = none) :
    (tryBody env fuel s).2.1.shared_memory = s.shared_memory := by
  cases h1 : env.tcCtor with
  | some e => rw [tryBody_tcFail fuel s h1]
  | none =>
  cases h2 : env.rpCtor with
  | some e => rw [tryBody_rpFail fuel s h1 h2]
  | none =>
  cases h3 : env.initHook.raises with
  | some e =>
    rw [tryBody_initFail fuel s h1 h2 h3]
    simp [hi, applyMemEff, startState]
  | none =>
    rw [tryBody_loop fuel s h1 h2 h3]
    rw [runLoop_state_noWrites env fuel hiter 0]
    simp [hi, applyMemEff, startState]

theorem runFinally_shared_noWrites {M : Type} (env : RunEnv M) (s : PState M)
    (hc : env.cleanupHook.memEff = none) :
    (runFinally env s).2.1.shared_memory = s.shared_memory := by
  obtain ⟨o, ip, w, n, m, t, r, l⟩ := s
  cases t <;> cases l <;> cases r <;> cases htc : env.tcCleanup <;>
    cases hcr : env.cleanupHook.raises <;>
    simp [runFinally, finTail, htc, hcr, hc, applyMemEff]

theorem run_shared_noWrites {M : Type} (env : RunEnv M) (fuel : Nat)
    (s : PState M) (h : noMemWrites env) :
    (MPFProcess.run env fuel s).2.1.shared_memory = s.shared_memory := by
  obtain ⟨hi, hcl, hiter⟩ := h
  have htry := tryBody_shared_noWrites env fuel s hi hiter
  rcases h₁ : tryBody env fuel s with ⟨es, s1, x⟩
  rw [h₁] at htry
  simp only at htry
  cases x with
  | fuelOutT => rw [run_eq_fuelOut h₁]; exact htry
  | normal =>
    rw [run_eq_normal h₁]
    simp only
    rw [runFinally_shared_noWrites env s1 hcl]
    exact htry
  | excT e =>
    rw [run_eq_exc h₁]
    simp only
    rw [runFinally_shared_noWrites env s1 hcl]
    exact htry

/-! ## Completed iterations -/

theorem stepPhase_completes {M : Type} (wait : Option Nat) (ie : IterEnv M)
    (s : PState M) (hs : ie.stepHook.raises = none)
    (hpub : ie.publishHook.raises = none)
    (hsl : wait.isSome = true → ie.sleepRaises = none) :
    (stepPhase wait ie s).1 =
      [Event.stepCall, Event.publishCall] ++
        (if wait.isSome then [Event.sleepCall] else []) ∧
    (stepPhase wait ie s).2.2 = .next := by
  unfold stepPhase
  rw [hs, hpub]
  cases wait with
  | none => simp
  | some p => rw [hsl rfl]; simp

theorem runIter_completes {M : Type} (wait : Option Nat) (ie : IterEnv M)
    (s : PState M) (hc : iterCompletes wait ie) :
    (runIter wait ie s).1 =
      [Event.pollCall] ++
        (match ie.poll with
         | .newMsg h d => [Event.updateCall h d]
         | _ => []) ++
        [Event.stepCall, Event.publishCall] ++
        (if wait.isSome then [Event.sleepCall] else []) ∧
    (runIter wait ie s).2.2 = .next := by
  obtain ⟨hp, hm, hs, hpub, hsl⟩ := hc
  cases hp' : ie.poll with
  | pollRaise => exact absurd hp' hp
  | noMsg =>
    rw [runIter_noMsg s hp']
    obtain ⟨t1, t2⟩ := stepPhase_completes wait ie s hs hpub hsl
    exact ⟨by rw [t1]; simp, t2⟩
  | newMsg h d =>
    obtain ⟨hh, hu⟩ := hm h d hp'
    rw [runIter_updateOk s hp' hh hu]
    obtain ⟨t1, t2⟩ := stepPhase_completes wait ie
      (applyMemEff s ie.updateHook.memEff) hs hpub hsl
    exact ⟨by rw [t1]; simp, t2⟩

theorem runLoop_completes_step {M : Type} (env : RunEnv M) (fuel i : Nat)
    (s : PState M) (hc : iterCompletes s.loop_wait_period (env.iters i)) :
    (runLoop env (fuel + 1) i s).1 =
      (runIter s.loop_wait_period (env.iters i) s).1 ++
        (runLoop env fuel (i + 1)
          (runIter s.loop_wait_period (env.iters i) s).2.1).1 := by
  have hnext := (runIter_completes s.loop_wait_period (env.iters i) s hc).2
  rcases h : runIter s.loop_wait_period (env.iters i) s with ⟨es, s', x⟩
  rw [h] at hnext
  simp only at hnext
  subst hnext
  rw [runLoop_succ_next h]

/-! ## `update` never sees the stop sentinel -/

theorem isTryEvent_update {h : String} {d : Nat}
    (hev : isTryEvent (.updateCall h d) = true) : h ≠ "STOP PROCESS" := by
  simp [isTryEvent, isLoopEvent] at hev
  intro hcon
  rw [hcon] at hev
  simp at hev

theorem runExcept_no_update {M : Type} (s : PState M) (e : PyExc)
    {h : String} {d : Nat} : Event.updateCall h d ∉ (runExcept s e).1 := by
  unfold runExcept
  cases s.mpfLog <;> simp

theorem run_update_ne_stop {M : Type} (env : RunEnv M) (fuel : Nat)
    (s : PState M) :
    ∀ h d, Event.updateCall h d ∈ (MPFProcess.run env fuel s).1 →
      h ≠ "STOP PROCESS" := by
  intro h d hmem
  rcases h₁ : tryBody env fuel s with ⟨es, s1, x⟩
  have htry : ∀ ev ∈ es, isTryEvent ev = true := by
    have := tryBody_mem env fuel s; rw [h₁] at this; exact this
  have hfin : Event.updateCall h d ∉ (runFinally env s1).1 := by
    intro hcon
    have := runFinally_mem env s1 _ hcon
    simp [isWorkEvent] at this
  cases x with
  | fuelOutT =>
    rw [run_eq_fuelOut h₁] at hmem
    exact isTryEvent_update (htry _ hmem)
  | normal =>
    simp only [run_eq_normal h₁, List.mem_append] at hmem
    rcases hmem with hmem | hmem
    · exact isTryEvent_update (htry _ hmem)
    · exact absurd hmem hfin
  | excT e =>
    simp only [run_eq_exc h₁, List.mem_append] at hmem
    rcases hmem with (hmem | hmem) | hmem
    · exact isTryEvent_update (htry _ hmem)
    · exact absurd hmem (runExcept_no_update s1 e)
    · exact absurd hmem hfin

/-! ## Outcome of the `finally:` block by cases -/

theorem runFinallyOut_noLog {M : Type} (env : RunEnv M) (s : PState M)
    (hl : s.mpfLog = none) :
    runFinallyOut env s = .raisedFin .attributeError := by
  obtain ⟨o, ip, w, n, m, t, r, l⟩ := s
  simp only at hl
  subst hl
  cases t <;> simp [runFinallyOut, finTailOut]

theorem runFinallyOut_fields {M : Type} (env : RunEnv M) (s : PState M)
    (ht : s.task_checker = some ()) (hl : s.mpfLog = some ()) :
    (∀ e, env.tcCleanup = some e → runFinallyOut env s = .raisedFin e) ∧
    (∀ e, env.tcCleanup = none → env.cleanupHook.raises = some e →
      runFinallyOut env s = .raisedFin e) ∧
    (env.tcCleanup = none → env.cleanupHook.raises = none →
      runFinallyOut env s = .ret) := by
  obtain ⟨o, ip, w, n, m, t, r, l⟩ := s
  simp only at ht hl
  subst ht; subst hl
  refine ⟨?_, ?_, ?_⟩
  · intro e htc; simp [runFinallyOut, htc]
  · intro e htc hcr; simp [runFinallyOut, finTailOut, htc, hcr]
  · intro htc hcr; simp [runFinallyOut, finTailOut, htc, hcr]

/-! ## The claims -/

/-- C8: each of the five lifecycle hooks `init`, `update`, `step`, `publish`
and `cleanup`, as defined on the `MPFProcess` base class (not overridden),
raises `NotImplementedError` whenever invoked — in particular on its first
invocation, so a missing implementation surfaces as an immediate crash the
first time the Supervision Loop invokes that hook. -/
theorem C8_default_hooks_raise :
    MPFProcess.init = Except.error PyExc.notImplementedError ∧
    (∀ (h : String) (d : Nat),
      MPFProcess.update h d = Except.error PyExc.notImplementedError) ∧
    MPFProcess.step = Except.error PyExc.notImplementedError ∧
    MPFProcess.publish = Except.error PyExc.notImplementedError ∧
    MPFProcess.cleanup = Except.error PyExc.notImplementedError :=
  ⟨rfl, fun _ _ => rfl, rfl, rfl, rfl⟩

/-- C9: `set_shared_memory` stores the handle in `shared_memory` and changes
no other field; the supervision code of `run` never reads `shared_memory`
(trace, outcome and every other final field are independent of it) and never
writes it (when no hook writes it, it is unchanged after `run`): the final
`shared_memory` is whatever the lifecycle hooks left there. -/
theorem C9_shared_memory_frame {M : Type} :
    (∀ (s : PState M) (memory : Option M),
      (MPFProcess.set_shared_memory s memory).shared_memory = memory ∧
      (MPFProcess.set_shared_memory s memory).outQ = s.outQ ∧
      (MPFProcess.set_shared_memory s memory).inpQ = s.inpQ ∧
      (MPFProcess.set_shared_memory s memory).loop_wait_period =
        s.loop_wait_period ∧
      (MPFProcess.set_shared_memory s memory).name = s.name ∧
      (MPFProcess.set_shared_memory s memory).task_checker = s.task_checker ∧
      (MPFProcess.set_shared_memory s memory).results_publisher =
        s.results_publisher ∧
      (MPFProcess.set_shared_memory s memory).mpfLog = s.mpfLog) ∧
    (∀ (env : RunEnv M) (fuel : Nat) (s₁ s₂ : PState M),
      forgetMem s₁ = forgetMem s₂ →
      (MPFProcess.run env fuel s₁).1 = (MPFProcess.run env fuel s₂).1 ∧
      (MPFProcess.run env fuel s₁).2.2 = (MPFProcess.run env fuel s₂).2.2 ∧
      forgetMem (MPFProcess.run env fuel s₁).2.1 =
        forgetMem (MPFProcess.run env fuel s₂).2.1) ∧
    (∀ (env : RunEnv M) (fuel : Nat) (s : PState M), noMemWrites env →
      (MPFProcess.run env fuel s).2.1.shared_memory = s.shared_memory) :=
  ⟨fun _ _ => ⟨rfl, rfl, rfl, rfl, rfl, rfl, rfl, rfl⟩,
    run_indep, run_shared_noWrites⟩

/-- Witness for C9 at a concrete run: with no hook writing the handle,
`run` leaves `shared_memory` exactly as constructed. -/
theorem C9_witness :
    (MPFProcess.run envStop 5 state0).2.1.shared_memory =
      state0.shared_memory :=
  C9_shared_memory_frame.2.2 envStop 5 state0
    ⟨rfl, rfl, fun _ => ⟨rfl, rfl, rfl⟩⟩

/-- C10: if an exception is raised in `run()` before `_MPFLog` is assigned
(construction of the task checker or of the results publisher fails), the
worker's `cleanup()` hook is never invoked: both the `except:` handler and
the teardown block dereference the still-`None` logger, and the resulting
`AttributeError` propagates out of `run()` before the `cleanup()` call is
reached. -/
theorem C10_logger_none_skips_cleanup {M : Type} (env : RunEnv M)
    (fuel : Nat) (s : PState M) (e : PyExc)
    (hl : s.mpfLog = none) (ht : s.task_checker = none)
    (hr : s.results_publisher = none)
    (hc : env.tcCtor = some e ∨ (env.tcCtor = none ∧ env.rpCtor = some e)) :
    (MPFProcess.run env fuel s).1.count .workerCleanupCall = 0 ∧
    (MPFProcess.run env fuel s).2.2 = .raisedOut .attributeError := by
  rcases hc with h1 | ⟨h1, h2⟩
  · have h₁ := tryBody_tcFail fuel s h1
    rw [run_eq_exc h₁]
    constructor
    · simp only [List.count_append, List.nil_append]
      rw [runExcept_trace_noLog e hl,
        runFinally_trace_eq, runFinallyTrace_noLog env s hl hr]
      simp
    · simp only
      rw [runFinally_out_eq, runFinallyOut_noLog env s hl]
      rfl
  · have h₁ := tryBody_rpFail fuel s h1 h2
    have hl' : ({ s with task_checker := some () } : PState M).mpfLog = none := hl
    have hr' : ({ s with task_checker := some () } : PState M).results_publisher
        = none := hr
    rw [run_eq_exc h₁]
    constructor
    · simp only [List.count_append, List.nil_append]
      rw [runExcept_trace_noLog e hl',
        runFinally_trace_eq, runFinallyTrace_noLog env _ hl' hr']
      simp
    · simp only
      rw [runFinally_out_eq, runFinallyOut_noLog env _ hl']
      rfl

/-- Witness for C10: the task-checker constructor fails in a freshly
constructed worker; `cleanup` never runs and `AttributeError` escapes. -/
theorem C10_witness :
    (MPFProcess.run envCtorFail 5 state0).1.count .workerCleanupCall = 0 ∧
    (MPFProcess.run envCtorFail 5 state0).2.2 =
      .raisedOut .attributeError :=
  C10_logger_none_skips_cleanup envCtorFail 5 state0 .hookError
    rfl rfl rfl (Or.inl rfl)

/-- C1 counterexample: an execution in which `init()` completed (the
post-`init` debug event was logged) and the main loop was entered (a poll
happened), exiting via the stop sentinel — yet the worker's `cleanup()` was
invoked zero times, because `task_checker.cleanup()` raised during teardown.
This refutes the claim that `cleanup()` is invoked exactly once in every
such execution. -/
theorem C1_counterexample :
    (MPFProcess.run envStopTcFail 5 state0).1.count .initCall = 1 ∧
    Event.debug .initializedMsg ∈ (MPFProcess.run envStopTcFail 5 state0).1 ∧
    Event.pollCall ∈ (MPFProcess.run envStopTcFail 5 state0).1 ∧
    Event.debug .stopSignalMsg ∈ (MPFProcess.run envStopTcFail 5 state0).1 ∧
    (MPFProcess.run envStopTcFail 5 state0).1.count .workerCleanupCall = 0 := by
  decide

/-- C1 (amended): in every execution of `run()` in which the constructors
succeed, `init()` completes, the loop is entered and then exits (via the
stop sentinel or via a caught exception), the worker's `cleanup()` hook is
invoked exactly once — provided the task checker's own `cleanup()` in the
teardown block does not raise (if it does, worker cleanup is skipped and
the exception propagates, per the teardown semantics of C7). -/
theorem C1_cleanup_exactly_once_amended {M : Type} (env : RunEnv M)
    (fuel : Nat) (s : PState M)
    (h1 : env.tcCtor = none) (h2 : env.rpCtor = none)
    (h3 : env.initHook.raises = none)
    (h4 : (tryBody env fuel s).2.2 ≠ .fuelOutT)
    (h5 : env.tcCleanup = none) :
    (MPFProcess.run env fuel s).1.count .workerCleanupCall = 1 := by
  obtain ⟨hlog, -, -, -⟩ := tryBody_fields env fuel s h1 h2
  rcases h₁ : tryBody env fuel s with ⟨es, s1, x⟩
  rw [h₁] at hlog h4
  simp only at hlog h4
  have hes : es.count .workerCleanupCall = 0 := by
    have := tryBody_count_zero env fuel s
      (a := Event.workerCleanupCall) (by decide)
    rw [h₁] at this; exact this
  cases x with
  | fuelOutT => exact absurd rfl h4
  | normal =>
    rw [run_eq_normal h₁]
    simp only [List.count_append]
    rw [hes, runFinally_count_cleanup env s1 hlog h5]
  | excT e =>
    rw [run_eq_exc h₁]
    simp only [List.count_append]
    rw [hes, runFinally_count_cleanup env s1 hlog h5,
      runExcept_trace_log e hlog]
    simp

/-- Witness for the amended C1: stop sentinel on the first poll, clean
teardown, exactly one `cleanup()` invocation. -/
theorem C1_witness :
    (MPFProcess.run envStop 5 state0).1.count .workerCleanupCall = 1 :=
  C1_cleanup_exactly_once_amended envStop 5 state0 rfl rfl rfl
    (by decide) rfl

/-- C5 counterexample: `init()` raised (it was invoked but the post-`init`
debug event never appeared), no `step` ever ran — but the worker's
`cleanup()` was invoked zero times, because `task_checker.cleanup()` raised
in the teardown block.  This refutes the claim that `cleanup()` is always
still invoked when `init()` raises. -/
theorem C5_counterexample :
    (MPFProcess.run envInitFailTcFail 5 state0).1.count .initCall = 1 ∧
    Event.debug .initializedMsg ∉ (MPFProcess.run envInitFailTcFail 5 state0).1 ∧
    (MPFProcess.run envInitFailTcFail 5 state0).1.count .stepCall = 0 ∧
    (MPFProcess.run envInitFailTcFail 5 state0).1.count .workerCleanupCall
      = 0 := by
  decide

/-- C5 (amended): if both constructors succeed and `init()` raises, then —
provided the task checker's `cleanup()` in the teardown block does not
raise — the worker's `cleanup()` is still invoked exactly once, and
`step()` and `publish()` are never invoked in that execution of `run()`. -/
theorem C5_init_failure_cleanup_amended {M : Type} (env : RunEnv M)
    (fuel : Nat) (s : PState M) (e : PyExc)
    (h1 : env.tcCtor = none) (h2 : env.rpCtor = none)
    (h3 : env.initHook.raises = some e)
    (h5 : env.tcCleanup = none) :
    (MPFProcess.run env fuel s).1.count .workerCleanupCall = 1 ∧
    (MPFProcess.run env fuel s).1.count .stepCall = 0 ∧
    (MPFProcess.run env fuel s).1.count .publishCall = 0 := by
  have h₁ := tryBody_initFail fuel s h1 h2 h3
  obtain ⟨hlog, -, -, -⟩ := tryBody_fields env fuel s h1 h2
  rw [h₁] at hlog
  simp only at hlog
  rw [run_eq_exc h₁]
  simp only [List.count_append]
  rw [runExcept_trace_log e hlog]
  refine ⟨?_, ?_, ?_⟩
  · rw [runFinally_count_cleanup env _ hlog h5]
    simp
  · rw [runFinally_count_work_zero env _ (a := Event.stepCall) (by decide)]
    simp
  · rw [runFinally_count_work_zero env _ (a := Event.publishCall) (by decide)]
    simp

/-- Witness for the amended C5: `init` raises, teardown is clean; one
`cleanup()`, no `step`, no `publish`. -/
theorem C5_witness :
    (MPFProcess.run envInitFail 5 state0).1.count .workerCleanupCall = 1 ∧
    (MPFProcess.run envInitFail 5 state0).1.count .stepCall = 0 ∧
    (MPFProcess.run envInitFail 5 state0).1.count .publishCall = 0 :=
  C5_init_failure_cleanup_amended envInitFail 5 state0 .hookError
    rfl rfl rfl rfl

/-- C2: any exception raised during `init()` or during a loop iteration
(with both constructors having succeeded, so the logger is assigned) is
caught at the single outer boundary of `run()`: the whole trace is the
`try:` body's events, then exactly one critical log event carrying the
worker's name and the caught exception, then only teardown events — no
further poll, `update`, `step` or `publish` ever occurs. -/
theorem C2_crash_logged_and_stops {M : Type} (env : RunEnv M) (fuel : Nat)
    (s : PState M) (e : PyExc)
    (h1 : env.tcCtor = none) (h2 : env.rpCtor = none)
    (hx : (tryBody env fuel s).2.2 = .excT e) :
    (MPFProcess.run env fuel s).1 =
      (tryBody env fuel s).1 ++
        Event.critical (tryBody env fuel s).2.1.name e ::
          (runFinally env (tryBody env fuel s).2.1).1 ∧
    ∀ ev ∈ (runFinally env (tryBody env fuel s).2.1).1,
      isWorkEvent ev = false := by
  obtain ⟨hlog, -, -, -⟩ := tryBody_fields env fuel s h1 h2
  rcases h₁ : tryBody env fuel s with ⟨es, s1, x⟩
  rw [h₁] at hx hlog
  simp only at hx hlog
  subst hx
  constructor
  · rw [run_eq_exc h₁, runExcept_trace_log e hlog]
    simp
  · exact runFinally_mem env s1

/-- Witness for C2 at a concrete crash (`init` raises): the trace equation
holds with exactly one critical event between body and teardown. -/
theorem C2_witness :
    (MPFProcess.run envInitFail 5 state0).1 =
      (tryBody envInitFail 5 state0).1 ++
        Event.critical (tryBody envInitFail 5 state0).2.1.name .hookError ::
          (runFinally envInitFail (tryBody envInitFail 5 state0).2.1).1 :=
  (C2_crash_logged_and_stops envInitFail 5 state0 .hookError rfl rfl
    (by decide)).1

/-- C3: `update` is never invoked with the stop sentinel `"STOP PROCESS"`
as header — every `updateCall` event of any execution of `run` carries a
different header — and in an iteration whose poll delivers the sentinel the
loop immediately breaks, emitting only the poll and the stop-signal debug
event, with no `update`/`step`/`publish` in that iteration and no later
iteration. -/
theorem C3_sentinel_never_reaches_update {M : Type} (env : RunEnv M)
    (fuel : Nat) (s : PState M) :
    (∀ h d, Event.updateCall h d ∈ (MPFProcess.run env fuel s).1 →
      h ≠ "STOP PROCESS") ∧
    (∀ (i d : Nat) (s' : PState M),
      (env.iters i).poll = .newMsg "STOP PROCESS" d →
      runLoop env (fuel + 1) i s' =
        ([Event.pollCall, Event.debug .stopSignalMsg], s', .broke)) := by
  refine ⟨run_update_ne_stop env fuel s, ?_⟩
  intro i d s' hp
  exact runLoop_succ_brk (runIter_stop s' hp)

/-- Witness for C3: the loop receiving the sentinel at iteration 0 ends
right there with only the poll and the stop debug event. -/
theorem C3_witness :
    runLoop envStop 5 0 state0 =
      ([Event.pollCall, Event.debug .stopSignalMsg], state0, .broke) :=
  (C3_sentinel_never_reaches_update envStop 4 state0).2 0 0 state0 rfl

/-- C4: a completed loop iteration runs, in order: exactly one poll; then
exactly one `update(header, latest_data)` if and only if the poll delivered
a new (necessarily non-sentinel) message; then exactly one `step`; then
exactly one `publish`; then exactly one sleep if and only if a loop wait
period is configured — and the loop then proceeds to the next iteration,
its trace being this iteration's block followed by the rest. -/
theorem C4_iteration_order {M : Type} (wait : Option Nat) (ie : IterEnv M)
    (s : PState M) (env : RunEnv M) (fuel i : Nat) (s0 : PState M)
    (hc : iterCompletes wait ie)
    (hc0 : iterCompletes s0.loop_wait_period (env.iters i)) :
    ((runIter wait ie s).1 =
        [Event.pollCall] ++
          (match ie.poll with
           | .newMsg h d => [Event.updateCall h d]
           | _ => []) ++
          [Event.stepCall, Event.publishCall] ++
          (if wait.isSome then [Event.sleepCall] else []) ∧
      (runIter wait ie s).2.2 = .next) ∧
    (runLoop env (fuel + 1) i s0).1 =
      (runIter s0.loop_wait_period (env.iters i) s0).1 ++
        (runLoop env fuel (i + 1)
          (runIter s0.loop_wait_period (env.iters i) s0).2.1).1 :=
  ⟨runIter_completes wait ie s hc, runLoop_completes_step env fuel i s0 hc0⟩

/-- Witness for C4: the iteration that receives `("A", 1)` completes with
exit `next`, and the loop trace decomposes as that iteration's block
followed by the remaining iterations. -/
theorem C4_witness :
    (runIter none iterMsgA state0).2.2 = .next ∧
    (runLoop envWork 4 0 state0).1 =
      (runIter state0.loop_wait_period (envWork.iters 0) state0).1 ++
        (runLoop envWork 3 1
          (runIter state0.loop_wait_period (envWork.iters 0) state0).2.1).1 := by
  have hA : iterCompletes (M := Unit) none iterMsgA := by
    refine ⟨by decide, ?_, rfl, rfl, fun hcon => by simp at hcon⟩
    intro h d hp
    injection hp with hh hd
    subst hh
    exact ⟨by decide, rfl⟩
  have hB : iterCompletes state0.loop_wait_period (envWork.iters 0) := by
    refine ⟨by decide, ?_, rfl, rfl, fun hcon => by simp [state0, MPFProcess.construct] at hcon⟩
    intro h d hp
    injection hp with hh hd
    subst hh
    exact ⟨by decide, rfl⟩
  exact ⟨(C4_iteration_order none iterMsgA state0 envWork 3 0 state0 hA hB).1.2,
    (C4_iteration_order none iterMsgA state0 envWork 3 0 state0 hA hB).2⟩

/-- Teardown actions when the task checker's `cleanup()` returns normally:
the full guarded sequence ending in the worker's `cleanup()`. -/
theorem runFinally_filter_tcOk {M : Type} (env : RunEnv M) (s : PState M)
    (hl : s.mpfLog = some ()) (htc : env.tcCleanup = none) :
    (runFinally env s).1.filter isTeardownAction =
      (if s.task_checker.isSome
        then [Event.tcCleanupCall, Event.dropTaskChecker] else []) ++
      (if s.results_publisher.isSome
        then [Event.dropResultsPublisher] else []) ++
      [Event.workerCleanupCall] := by
  rw [runFinally_trace_eq]
  obtain ⟨o, ip, w, n, m, t, r, l⟩ := s
  simp only at hl
  subst hl
  cases t <;> cases r <;> cases hc : env.cleanupHook.raises <;>
    simp [runFinallyTrace, finTailTrace, htc, hc, isTeardownAction,
      List.filter]

/-- Teardown actions when the task checker's `cleanup()` raises: teardown
stops at that invocation — no reader drop, no publisher drop, and the
worker's `cleanup()` is never invoked. -/
theorem runFinally_filter_tcFail {M : Type} (env : RunEnv M) (s : PState M)
    (e : PyExc) (hl : s.mpfLog = some ()) (ht : s.task_checker = some ())
    (htc : env.tcCleanup = some e) :
    (runFinally env s).1.filter isTeardownAction = [Event.tcCleanupCall] := by
  rw [runFinally_trace_eq]
  obtain ⟨o, ip, w, n, m, t, r, l⟩ := s
  simp only at hl ht
  subst hl; subst ht
  simp [runFinallyTrace, htc, isTeardownAction, List.filter]

/-- C6 counterexample: an exit from the loop (the stop signal was received)
in which the task checker is not `None` and the results publisher is not
`None`, and yet the only teardown action performed is the reader's
`cleanup()` invocation — the reader is never dropped, the publisher is
never dropped, and the worker's `cleanup()` is never invoked, because the
reader's `cleanup()` raised.  This refutes the claim that on every exit
from the loop the teardown performs the full sequence ending with the
worker's `cleanup()` invoked unconditionally. -/
theorem C6_counterexample :
    Event.debug .stopSignalMsg ∈ (MPFProcess.run envStopTcFail 5 state0).1 ∧
    (MPFProcess.run envStopTcFail 5 state0).2.1.task_checker = some () ∧
    (MPFProcess.run envStopTcFail 5 state0).2.1.results_publisher = some () ∧
    (MPFProcess.run envStopTcFail 5 state0).1.filter isTeardownAction =
      [Event.tcCleanupCall] := by
  decide

/-- C6 (amended): on every exit from the loop (logger assigned), provided
the task checker's `cleanup()` does not raise, the teardown actions occur
in the fixed order: the reader's `cleanup()` then its drop (only if the
reader is not `None`), then the drop of the results publisher (only if it
is not `None`), then the worker's own `cleanup()` under no further guard;
if instead the reader's `cleanup()` raises, teardown stops at that
invocation and none of the later actions occur. -/
theorem C6_teardown_order_amended {M : Type} (env : RunEnv M) (s : PState M)
    (hl : s.mpfLog = some ()) :
    (env.tcCleanup = none →
      (runFinally env s).1.filter isTeardownAction =
        (if s.task_checker.isSome
          then [Event.tcCleanupCall, Event.dropTaskChecker] else []) ++
        (if s.results_publisher.isSome
          then [Event.dropResultsPublisher] else []) ++
        [Event.workerCleanupCall]) ∧
    (∀ e, env.tcCleanup = some e → s.task_checker = some () →
      (runFinally env s).1.filter isTeardownAction =
        [Event.tcCleanupCall]) :=
  ⟨fun htc => runFinally_filter_tcOk env s hl htc,
    fun e htc ht => runFinally_filter_tcFail env s e hl ht htc⟩

/-- Witness for the amended C6: from the state in which both the task
checker and the results publisher were constructed, a clean reader cleanup
yields the full ordered sequence, and a raising reader cleanup yields only
the reader-cleanup invocation. -/
theorem C6_witness :
    (runFinally envStop (startState state0)).1.filter isTeardownAction =
      (if (startState state0).task_checker.isSome
        then [Event.tcCleanupCall, Event.dropTaskChecker] else []) ++
      (if (startState state0).results_publisher.isSome
        then [Event.dropResultsPublisher] else []) ++
      [Event.workerCleanupCall] ∧
    (runFinally envStopTcFail (startState state0)).1.filter isTeardownAction =
      [Event.tcCleanupCall] :=
  ⟨(C6_teardown_order_amended envStop (startState state0) rfl).1 rfl,
    (C6_teardown_order_amended envStopTcFail (startState state0) rfl).2
      .hookError rfl rfl⟩

/-- C7: an exception raised during teardown — by the task checker's
`cleanup()` or by the worker's own `cleanup()` — is not caught by the
outer handler of `run()` and propagates out of `run()` as the process's
exit failure. -/
theorem C7_teardown_failure_propagates {M : Type} (env : RunEnv M)
    (fuel : Nat) (s : PState M) (e : PyExc)
    (h1 : env.tcCtor = none) (h2 : env.rpCtor = none)
    (h4 : (tryBody env fuel s).2.2 ≠ .fuelOutT) :
    (env.tcCleanup = some e →
      (MPFProcess.run env fuel s).2.2 = .raisedOut e) ∧
    (env.tcCleanup = none → env.cleanupHook.raises = some e →
      (MPFProcess.run env fuel s).2.2 = .raisedOut e) := by
  obtain ⟨hlog, htch, -, -⟩ := tryBody_fields env fuel s h1 h2
  rcases h₁ : tryBody env fuel s with ⟨es, s1, x⟩
  rw [h₁] at hlog htch h4
  simp only at hlog htch h4
  obtain ⟨o1, o2, -⟩ := runFinallyOut_fields env s1 htch hlog
  have hrun : (MPFProcess.run env fuel s).2.2 =
      finToOutcome (runFinallyOut env s1) := by
    cases x with
    | fuelOutT => exact absurd rfl h4
    | normal => rw [run_eq_normal h₁, runFinally_out_eq]
    | excT e2 => rw [run_eq_exc h₁, runFinally_out_eq]
  refine ⟨fun htcc => ?_, fun htcc hcr => ?_⟩
  · rw [hrun, o1 e htcc]; rfl
  · rw [hrun, o2 e htcc hcr]; rfl

/-- Witness for C7: the task checker's `cleanup()` raises after a sentinel
stop; `run` propagates the exception instead of returning. -/
theorem C7_witness :
    (MPFProcess.run envStopTcFail 5 state0).2.2 = .raisedOut .hookError :=
  (C7_teardown_failure_propagates envStopTcFail 5 state0 .hookError
    rfl rfl (by decide)).1 rfl
